import Mathlib

/-!
Shallow embedding of `src/color/creating_reading.js`: the ColorValue record
built by `p5.prototype.color`, the component accessors, the `rgb2hsv`
conversion and `lerpColor`.  JS numbers are modelled as rationals; a JS
value that is not a number (`undefined`, a non-numeric argument, or a `NaN`
produced by arithmetic on such a value) is modelled as `none : Option ℚ`.
-/

namespace P5Color

/-- A JS value in a numeric slot: `some q` is the number `q`, `none` stands
for any non-numeric value (`undefined`, `NaN`, or a value of another type). -/
abbrev JNum := Option ℚ

/-- JS `Math.round`: round half towards positive infinity,
`Math.round(x) = floor(x + 1/2)`. -/
def jround (q : ℚ) : ℤ := (q + 1/2).floor

theorem jround_eq_floor (q : ℚ) : jround q = ⌊q + 1/2⌋ := rfl

theorem jround_eq_of {q : ℚ} {z : ℤ} (h1 : (z : ℚ) ≤ q + 1/2) (h2 : q + 1/2 < z + 1) :
    jround q = z := by
  rw [jround_eq_floor]
  exact Int.floor_eq_iff.mpr ⟨h1, h2⟩

/-- `var_Min = Math.min(var_R, var_G, var_B)` of `rgb2hsv` (channels already
divided by 255). -/
def varMin (r g b : ℚ) : ℚ := min (r / 255) (min (g / 255) (b / 255))

/-- `var_Max = Math.max(var_R, var_G, var_B)` of `rgb2hsv`. -/
def varMax (r g b : ℚ) : ℚ := max (r / 255) (max (g / 255) (b / 255))

/-- `del_Max = var_Max - var_Min` of `rgb2hsv`. -/
def delMax (r g b : ℚ) : ℚ := varMax r g b - varMin r g b

/-- The per-channel delta of `rgb2hsv`: for channel value `c` (on the 0..255
scale), `(((var_Max - c/255) / 6) + (del_Max / 2)) / del_Max`.  Instantiated
at `c := r` it is `del_R`, at `c := g` it is `del_G`, at `c := b` it is
`del_B`. -/
def delC (r g b c : ℚ) : ℚ :=
  ((varMax r g b - c / 255) / 6 + delMax r g b / 2) / delMax r g b

/-- The chromatic-branch hue of `rgb2hsv` before wrapping: the if/else-if
chain comparing each normalized channel against `var_Max`, in the order r,
g, b.  In JS, when no guard matches, `H` stays `undefined`; that branch is
unreachable (the max always equals one of the three channels) and is
written `0` here. -/
def hueChroma (r g b : ℚ) : ℚ :=
  if r / 255 = varMax r g b then delC r g b b - delC r g b g
  else if g / 255 = varMax r g b then 1/3 + delC r g b r - delC r g b b
  else if b / 255 = varMax r g b then 2/3 + delC r g b g - delC r g b r
  else 0

/-- The two sequential conditional wraps of `rgb2hsv`:
`if (H<0) H += 1; if (H>1) H -= 1;`. -/
def hueWrap (h : ℚ) : ℚ :=
  let h1 := if h < 0 then h + 1 else h
  if h1 > 1 then h1 - 1 else h1

/-- The final value of the variable `H` in `rgb2hsv`: `0` in the achromatic
branch (`del_Max === 0`), otherwise the wrapped chromatic hue. -/
def hueOf (r g b : ℚ) : ℚ :=
  if delMax r g b = 0 then 0 else hueWrap (hueChroma r g b)

/-- The final value of the variable `S` in `rgb2hsv`: `0` in the achromatic
branch, otherwise `del_Max / var_Max`. -/
def satOf (r g b : ℚ) : ℚ :=
  if delMax r g b = 0 then 0 else delMax r g b / varMax r g b

/-- `rgb2hsv(r, g, b)`: returns
`[Math.round(H*255), Math.round(S*255), Math.round(V*255)]` with
`V = var_Max`. -/
def rgb2hsv (r g b : ℚ) : List ℚ :=
  [((jround (hueOf r g b * 255) : ℤ) : ℚ),
   ((jround (satOf r g b * 255) : ℤ) : ℚ),
   ((jround (varMax r g b * 255) : ℤ) : ℚ)]

theorem rgb2hsv_eq {r g b : ℚ} {z1 z2 z3 : ℤ}
    (h1 : jround (hueOf r g b * 255) = z1) (h2 : jround (satOf r g b * 255) = z2)
    (h3 : jround (varMax r g b * 255) = z3) :
    rgb2hsv r g b = [(z1 : ℚ), (z2 : ℚ), (z3 : ℚ)] := by
  rw [rgb2hsv, h1, h2, h3]

/-- The color record built by `p5.prototype.color`: `isColor` tag, the
normalized `rgba` tuple, the optional cached `hsba` tuple and the
precomputed color string. -/
structure ColorValue where
  isColor : Bool
  rgba : List JNum
  hsba : Option (List JNum)
  colorString : String
deriving DecidableEq

/-- The values of `this._colorMode` relevant to this module: `constants.RGB`
or any other mode (the code only tests `this._colorMode === constants.RGB`). -/
inductive ColorMode where
  | rgb
  | hsb
deriving DecidableEq, BEq

/-- The fields of the host `p5` object read by `p5.prototype.color`:
the active mode and the per-mode channel maxima. -/
structure P5 where
  _colorMode : ColorMode
  _maxRGB : List ℚ
  _maxHSB : List ℚ

/-- The channel-selection step of `p5.prototype.color` (lines picking
`r, g, b, a` from `arguments`): the result of the `args.length >= 3`
conditional tree. -/
structure ChannelSel where
  r : JNum
  g : JNum
  b : JNum
  a : ℚ
deriving DecidableEq

/-- `r, g, b, a` as selected by `p5.prototype.color` from the raw argument
list.  `args.getD i none` is JS `args[i]` (`undefined`, i.e. `none`, when out
of range); `typeof x === 'number'` is `Option.isSome`; so
`(args.getD i none).getD d` is `typeof args[i] === 'number' ? args[i] : d`. -/
def colorArgsSelect (isRGB : Bool) (maxArr : List ℚ) (args : List JNum) : ChannelSel :=
  if 3 ≤ args.length then
    { r := args.getD 0 none, g := args.getD 1 none, b := args.getD 2 none,
      a := (args.getD 3 none).getD (maxArr.getD 3 0) }
  else if isRGB then
    { r := args.getD 0 none, g := args.getD 0 none, b := args.getD 0 none,
      a := (args.getD 1 none).getD (maxArr.getD 3 0) }
  else
    { r := args.getD 0 none, g := some 0, b := args.getD 0 none,
      a := (args.getD 1 none).getD (maxArr.getD 3 0) }

/-- Modelled from the spec: `normalizeToDisplayRange` /
`this.getNormalizedColor` is not part of this file of the repository; the
spec describes it as a per-channel monotone, range-preserving linear scaling
of the raw tuple onto 0..255 driven by the active mode's maxima.  A
non-numeric channel propagates as non-numeric (`NaN` in JS).  A missing
maximum is modelled with divisor 0 (unexercised here; JS would produce
`NaN`). -/
def getNormalizedColor (maxArr : List ℚ) (t : List JNum) : List JNum :=
  (List.range t.length).map fun i => (t.getD i none).map fun q => q * 255 / maxArr.getD i 0

/-- Modelled from the spec: `formatColorString` / `this.getColorString` is
not part of this file of the repository; the spec only says the display
string is derived from `rgba`, so it is modelled as a plain rendering of the
channel list. -/
def getColorString (rgba : List JNum) : String := toString rgba

/-- `p5.prototype.color`: select channels by mode and argument count, store
the raw tuple as `hsba` when the mode is not RGB, normalize into `rgba`, and
precompute the color string. -/
def color (p : P5) (args : List JNum) : ColorValue :=
  let isRGB : Bool := p._colorMode == ColorMode.rgb
  let maxArr := if isRGB then p._maxRGB else p._maxHSB
  let s := colorArgsSelect isRGB maxArr args
  let raw : List JNum := [s.r, s.g, s.b, some s.a]
  let rgba := getNormalizedColor maxArr raw
  { isColor := true
    rgba := rgba
    hsba := if isRGB then none else some raw
    colorString := getColorString rgba }

/-- `rgb2hsv` as applied to the stored `rgba` channels, which may be
non-numeric: in JS a `NaN` input makes every comparison false and every
arithmetic result `NaN`, so all three outputs are `NaN`. -/
def rgb2hsvJ (r g b : JNum) : List JNum :=
  match r, g, b with
  | some r, some g, some b => (rgb2hsv r g b).map some
  | _, _, _ => [none, none, none]

/-- The tuple stored into `c.hsba` by the hue/saturation/brightness
accessors: `rgb2hsv(c.rgba[0], c.rgba[1], c.rgba[2]).concat(c.rgba[3])`. -/
def computeHsba (c : ColorValue) : List JNum :=
  rgb2hsvJ (c.rgba.getD 0 none) (c.rgba.getD 1 none) (c.rgba.getD 2 none) ++
    [c.rgba.getD 3 none]

/-- The lazy cache fill `if (!c.hsba) { c.hsba = rgb2hsv(...).concat(...) }`
shared by the hue, saturation and brightness accessors. -/
def ensureHsba (c : ColorValue) : ColorValue :=
  match c.hsba with
  | some _ => c
  | none => { c with hsba := some (computeHsba c) }

/-- `p5.prototype.red` on a color value: returns `c.rgba[0]`, state-passing
form.  (On a non-color input the JS code first coerces through
`this.color`; that path takes a host object and is outside the
`ColorValue` type.) -/
def red (c : ColorValue) : JNum × ColorValue := (c.rgba.getD 0 none, c)

/-- `p5.prototype.green` on a color value: returns `c.rgba[1]`. -/
def green (c : ColorValue) : JNum × ColorValue := (c.rgba.getD 1 none, c)

/-- `p5.prototype.blue` on a color value: returns `c.rgba[2]`. -/
def blue (c : ColorValue) : JNum × ColorValue := (c.rgba.getD 2 none, c)

/-- `p5.prototype.alpha` on a color value: returns `c.rgba[3]`. -/
def alpha (c : ColorValue) : JNum × ColorValue := (c.rgba.getD 3 none, c)

/-- `p5.prototype.hue` on a color value: fill the `hsba` cache if absent,
return `c.hsba[0]` and the (possibly updated) color. -/
def hue (c : ColorValue) : JNum × ColorValue :=
  let c1 := ensureHsba c
  ((c1.hsba.getD []).getD 0 none, c1)

/-- `p5.prototype.saturation` on a color value: cache fill, then
`c.hsba[1]`. -/
def saturation (c : ColorValue) : JNum × ColorValue :=
  let c1 := ensureHsba c
  ((c1.hsba.getD []).getD 1 none, c1)

/-- `p5.prototype.brightness` on a color value: cache fill, then
`c.hsba[2]`. -/
def brightness (c : ColorValue) : JNum × ColorValue :=
  let c1 := ensureHsba c
  ((c1.hsba.getD []).getD 2 none, c1)

/-- Which of the three HSV-derived accessors is called. -/
inductive HsvAccessor where
  | hue
  | saturation
  | brightness

/-- The cache fill instrumented with a counter of `rgb2hsv` invocations:
the conversion runs exactly when the cache is absent. -/
def ensureHsbaCount (c : ColorValue) (n : ℕ) : ColorValue × ℕ :=
  match c.hsba with
  | some _ => (c, n)
  | none => ({ c with hsba := some (computeHsba c) }, n + 1)

/-- Run a sequence of hue/saturation/brightness calls on one color value,
counting `rgb2hsv` invocations.  All three accessors perform the same
cache-fill step before reading their component. -/
def runAccessors : List HsvAccessor → ColorValue → ℕ → ColorValue × ℕ
  | [], c, n => (c, n)
  | _ :: rest, c, n =>
    let p := ensureHsbaCount c n
    runAccessors rest p.1 p.2

/-- A `lerpColor` argument: a JS array of numbers or a numeric scalar
(`typeof c1 === 'object'` selects the array branch). -/
inductive LerpArg where
  | arr (l : List ℚ)
  | scalar (q : ℚ)
deriving DecidableEq

/-- JS `c[i]` on a `lerpColor` argument.  Indexing a scalar, or an array out
of range, gives `undefined` in JS; that case is unexercised by the theorems
below and modelled with `0`. -/
def lerpIndex (c : LerpArg) (i : ℕ) : ℚ :=
  match c with
  | .arr l => l.getD i 0
  | .scalar _ => 0

/-- The scalar content of a `lerpColor` argument (the non-object branch). -/
def lerpScalar (c : LerpArg) : ℚ :=
  match c with
  | .arr _ => 0
  | .scalar q => q

/-- `p5.prototype.lerpColor`, parameterized by the external scalar `lerp`
collaborator `f` (the code calls `p5.prototype.lerp`, which lives in another
module): on an array first argument, push `f(c1[i], c2[i], amt)` for each
`i < c1.length`; otherwise return `f(c1, c2, amt)`. -/
def lerpColorWith (f : ℚ → ℚ → ℚ → ℚ) (c1 c2 : LerpArg) (amt : ℚ) : LerpArg :=
  match c1 with
  | .arr l1 => .arr ((List.range l1.length).map fun i => f (l1.getD i 0) (lerpIndex c2 i) amt)
  | .scalar q => .scalar (f q (lerpScalar c2) amt)

/-- Modelled from the spec: the external scalar `lerp` collaborator,
`lerp(a, b, t) = a + (b - a) * t`. -/
def lerp (a b t : ℚ) : ℚ := a + (b - a) * t

/-- `p5.prototype.lerpColor` with the spec's scalar `lerp`. -/
def lerpColor (c1 c2 : LerpArg) (amt : ℚ) : LerpArg := lerpColorWith lerp c1 c2 amt

/-! ### Basic facts about `jround` and the min/max scaffolding -/

theorem jround_intCast (z : ℤ) : jround (z : ℚ) = z := by
  rw [jround_eq_floor]
  refine Int.floor_eq_iff.mpr ⟨?_, ?_⟩ <;> push_cast <;> linarith

theorem jround_zero : jround 0 = 0 := by
  simpa using jround_intCast 0

theorem jround_bounds {x : ℚ} (h0 : 0 ≤ x) (h1 : x ≤ 255) :
    0 ≤ jround x ∧ jround x ≤ 255 := by
  rw [jround_eq_floor]
  constructor
  · exact Int.le_floor.mpr (by push_cast; linarith)
  · have : (⌊x + 1/2⌋ : ℤ) < 256 := by
      rw [Int.floor_lt]
      push_cast
      linarith
    omega

theorem varMax_mul_255 (r g b : ℚ) : varMax r g b * 255 = max r (max g b) := by
  rw [varMax, max_div_div_right (by norm_num : (0:ℚ) ≤ 255),
    max_div_div_right (by norm_num : (0:ℚ) ≤ 255),
    div_mul_cancel₀ _ (by norm_num : (255:ℚ) ≠ 0)]

/-- C2: for all r, g, b in [0, 255], the third component of
`rgb2hsv(r, g, b)` is `Math.round(Math.max(r, g, b))`: the value channel is
the rounded maximum of the three input channels. -/
theorem rgb2hsv_value_eq_round_max (r g b : ℚ)
    (hr0 : 0 ≤ r) (hr1 : r ≤ 255) (hg0 : 0 ≤ g) (hg1 : g ≤ 255)
    (hb0 : 0 ≤ b) (hb1 : b ≤ 255) :
    (rgb2hsv r g b).getD 2 0 = ((jround (max r (max g b)) : ℤ) : ℚ) := by
  show ((jround (varMax r g b * 255) : ℤ) : ℚ) = _
  rw [varMax_mul_255]

theorem rgb2hsv_value_eq_round_max_witness :
    (0:ℚ) ≤ 204 ∧ (204:ℚ) ≤ 255 ∧
      (rgb2hsv 204 102 0).getD 2 0 = ((jround (max 204 (max 102 0)) : ℤ) : ℚ) :=
  ⟨by norm_num, by norm_num,
    rgb2hsv_value_eq_round_max 204 102 0 (by norm_num) (by norm_num) (by norm_num)
      (by norm_num) (by norm_num) (by norm_num)⟩

/-- C5: for every k in [0, 255], `rgb2hsv(k, k, k) = [0, 0, Math.round(k)]`:
with all three channels equal the delta is 0, so hue and saturation are 0
and the value is the rounded common channel. -/
theorem rgb2hsv_achromatic (k : ℚ) (h0 : 0 ≤ k) (h1 : k ≤ 255) :
    rgb2hsv k k k = [0, 0, ((jround k : ℤ) : ℚ)] := by
  have hd : delMax k k k = 0 := by simp [delMax, varMax, varMin]
  have hH : hueOf k k k = 0 := by simp [hueOf, hd]
  have hS : satOf k k k = 0 := by simp [satOf, hd]
  have hV : varMax k k k * 255 = k := by
    have : varMax k k k = k / 255 := by simp [varMax]
    rw [this, div_mul_cancel₀ _ (by norm_num : (255:ℚ) ≠ 0)]
  rw [rgb2hsv, hH, hS, hV]
  norm_num [jround_zero]

theorem rgb2hsv_achromatic_witness :
    (0:ℚ) ≤ 65 ∧ (65:ℚ) ≤ 255 ∧ rgb2hsv 65 65 65 = [0, 0, ((jround 65 : ℤ) : ℚ)] :=
  ⟨by norm_num, by norm_num, rgb2hsv_achromatic 65 (by norm_num) (by norm_num)⟩

/-! ### Range analysis for `rgb2hsv` -/

theorem varMin_le_div (r g b : ℚ) :
    varMin r g b ≤ r / 255 ∧ varMin r g b ≤ g / 255 ∧ varMin r g b ≤ b / 255 :=
  ⟨min_le_left _ _,
    le_trans (min_le_right _ _) (min_le_left _ _),
    le_trans (min_le_right _ _) (min_le_right _ _)⟩

theorem div_le_varMax (r g b : ℚ) :
    r / 255 ≤ varMax r g b ∧ g / 255 ≤ varMax r g b ∧ b / 255 ≤ varMax r g b :=
  ⟨le_max_left _ _,
    le_trans (le_max_left _ _) (le_max_right _ _),
    le_trans (le_max_right _ _) (le_max_right _ _)⟩

theorem varMin_le_varMax (r g b : ℚ) : varMin r g b ≤ varMax r g b :=
  le_trans (varMin_le_div r g b).1 (div_le_varMax r g b).1

theorem delMax_nonneg (r g b : ℚ) : 0 ≤ delMax r g b :=
  sub_nonneg.mpr (varMin_le_varMax r g b)

theorem delMax_pos {r g b : ℚ} (hd : delMax r g b ≠ 0) : 0 < delMax r g b :=
  lt_of_le_of_ne (delMax_nonneg r g b) (Ne.symm hd)

theorem delC_sub (r g b x y : ℚ) (hd : delMax r g b ≠ 0) :
    delC r g b x - delC r g b y = (y / 255 - x / 255) / (6 * delMax r g b) := by
  field_simp [delC]
  ring

theorem div6_bounds {d u : ℚ} (hd : 0 < d) (h1 : -d ≤ u) (h2 : u ≤ d) :
    -(1/6) ≤ u / (6 * d) ∧ u / (6 * d) ≤ 1/6 := by
  have h6 : 0 < 6 * d := by linarith
  constructor
  · rw [le_div_iff₀ h6]; linarith
  · rw [div_le_iff₀ h6]; linarith

theorem hueChroma_bounds (r g b : ℚ) (hd : delMax r g b ≠ 0) :
    -1 ≤ hueChroma r g b ∧ hueChroma r g b ≤ 2 := by
  have hpos := delMax_pos hd
  have hmin := varMin_le_div r g b
  have hmax := div_le_varMax r g b
  have key : ∀ x y : ℚ, varMin r g b ≤ x / 255 → x / 255 ≤ varMax r g b →
      varMin r g b ≤ y / 255 → y / 255 ≤ varMax r g b →
      -(1/6) ≤ delC r g b x - delC r g b y ∧ delC r g b x - delC r g b y ≤ 1/6 := by
    intro x y hx1 hx2 hy1 hy2
    rw [delC_sub r g b x y hd]
    refine div6_bounds hpos ?_ ?_ <;> simp only [delMax] at * <;> linarith
  rw [hueChroma]
  split_ifs
  · have := key b g hmin.2.2 hmax.2.2 hmin.2.1 hmax.2.1
    constructor <;> linarith [this.1, this.2]
  · have := key r b hmin.1 hmax.1 hmin.2.2 hmax.2.2
    constructor <;> linarith [this.1, this.2]
  · have := key g r hmin.2.1 hmax.2.1 hmin.1 hmax.1
    constructor <;> linarith [this.1, this.2]
  · norm_num

theorem hueWrap_bounds {h : ℚ} (h1 : -1 ≤ h) (h2 : h ≤ 2) :
    0 ≤ hueWrap h ∧ hueWrap h ≤ 1 := by
  simp only [hueWrap]
  split_ifs <;> constructor <;> linarith

theorem hueOf_bounds (r g b : ℚ) : 0 ≤ hueOf r g b ∧ hueOf r g b ≤ 1 := by
  rw [hueOf]
  split_ifs with hd
  · norm_num
  · exact hueWrap_bounds (hueChroma_bounds r g b hd).1 (hueChroma_bounds r g b hd).2

theorem satOf_bounds (r g b : ℚ) (hr0 : 0 ≤ r) (hg0 : 0 ≤ g) (hb0 : 0 ≤ b) :
    0 ≤ satOf r g b ∧ satOf r g b ≤ 1 := by
  rw [satOf]
  split_ifs with hd
  · norm_num
  · have hmin : 0 ≤ varMin r g b := by
      refine le_min (by positivity) (le_min (by positivity) (by positivity))
    have hdpos := delMax_pos hd
    have hmax : 0 < varMax r g b := by
      have := varMin_le_varMax r g b
      simp only [delMax] at hdpos
      linarith
    constructor
    · exact div_nonneg (delMax_nonneg r g b) hmax.le
    · rw [div_le_one hmax]
      simp only [delMax]
      linarith

theorem varMax_bounds (r g b : ℚ)
    (hr0 : 0 ≤ r) (hr1 : r ≤ 255) (hg0 : 0 ≤ g) (hg1 : g ≤ 255)
    (hb0 : 0 ≤ b) (hb1 : b ≤ 255) :
    0 ≤ varMax r g b ∧ varMax r g b ≤ 1 := by
  constructor
  · exact le_trans (by positivity) (div_le_varMax r g b).1
  · refine max_le ?_ (max_le ?_ ?_) <;>
      rw [div_le_one (by norm_num : (0:ℚ) < 255)] <;> assumption

theorem jround_cast_bounds {x : ℚ} (h0 : 0 ≤ x) (h1 : x ≤ 255) :
    ∃ z : ℤ, ((jround x : ℤ) : ℚ) = (z : ℚ) ∧ 0 ≤ z ∧ z ≤ 255 :=
  ⟨jround x, rfl, (jround_bounds h0 h1).1, (jround_bounds h0 h1).2⟩

/-- C3: for all r, g, b in [0, 255], every component of `rgb2hsv(r, g, b)`
is an integer-valued number in [0, 255]; moreover the single conditional
wrap (`H += 1` if negative, `H -= 1` if above 1) suffices: the final `H`
lies in [0, 1] before scaling by 255. -/
theorem rgb2hsv_components_in_range (r g b : ℚ)
    (hr0 : 0 ≤ r) (hr1 : r ≤ 255) (hg0 : 0 ≤ g) (hg1 : g ≤ 255)
    (hb0 : 0 ≤ b) (hb1 : b ≤ 255) :
    (0 ≤ hueOf r g b ∧ hueOf r g b ≤ 1) ∧
      ∀ x ∈ rgb2hsv r g b, ∃ z : ℤ, x = (z : ℚ) ∧ 0 ≤ z ∧ z ≤ 255 := by
  refine ⟨hueOf_bounds r g b, ?_⟩
  have scale : ∀ y : ℚ, 0 ≤ y → y ≤ 1 → 0 ≤ y * 255 ∧ y * 255 ≤ 255 := by
    intro y hy0 hy1
    constructor <;> nlinarith
  intro x hx
  simp only [rgb2hsv, List.mem_cons, List.not_mem_nil, or_false] at hx
  rcases hx with hx | hx | hx <;> subst hx
  · have h := scale _ (hueOf_bounds r g b).1 (hueOf_bounds r g b).2
    exact jround_cast_bounds h.1 h.2
  · have hs := satOf_bounds r g b hr0 hg0 hb0
    have h := scale _ hs.1 hs.2
    exact jround_cast_bounds h.1 h.2
  · have hv := varMax_bounds r g b hr0 hr1 hg0 hg1 hb0 hb1
    have h := scale _ hv.1 hv.2
    exact jround_cast_bounds h.1 h.2

theorem rgb2hsv_components_in_range_witness :
    ((0:ℚ) ≤ 10 ∧ (10:ℚ) ≤ 255 ∧ (0:ℚ) ≤ 200 ∧ (200:ℚ) ≤ 255 ∧
      (0:ℚ) ≤ 30 ∧ (30:ℚ) ≤ 255) ∧
    ((0 ≤ hueOf 10 200 30 ∧ hueOf 10 200 30 ≤ 1) ∧
      ∀ x ∈ rgb2hsv 10 200 30, ∃ z : ℤ, x = (z : ℚ) ∧ 0 ≤ z ∧ z ≤ 255) :=
  ⟨by norm_num,
    rgb2hsv_components_in_range 10 200 30 (by norm_num) (by norm_num) (by norm_num)
      (by norm_num) (by norm_num) (by norm_num)⟩

/-- C6: in the chromatic branch, the hue branch is selected by exact
equality of each normalized channel against `var_Max`, in the fixed order r,
then g, then b: whenever `r/255` equals the maximum — including ties where
`g/255` or `b/255` equals it too — the result hue comes from
`del_B - del_G`; the `1/3 + del_R - del_B` branch is used only when the r
test fails and `g/255` equals the maximum. -/
theorem hue_branch_order (r g b : ℚ) (hd : delMax r g b ≠ 0) :
    (r / 255 = varMax r g b →
      (rgb2hsv r g b).getD 0 0 =
        ((jround (hueWrap (delC r g b b - delC r g b g) * 255) : ℤ) : ℚ)) ∧
    (r / 255 ≠ varMax r g b → g / 255 = varMax r g b →
      (rgb2hsv r g b).getD 0 0 =
        ((jround (hueWrap (1/3 + delC r g b r - delC r g b b) * 255) : ℤ) : ℚ)) := by
  constructor
  · intro h1
    show ((jround (hueOf r g b * 255) : ℤ) : ℚ) = _
    rw [hueOf, if_neg hd, hueChroma, if_pos h1]
  · intro h1 h2
    show ((jround (hueOf r g b * 255) : ℤ) : ℚ) = _
    rw [hueOf, if_neg hd, hueChroma, if_neg h1, if_pos h2]

theorem hue_branch_order_witness :
    delMax 255 255 0 ≠ 0 ∧
      ((255:ℚ) / 255 = varMax 255 255 0 →
        (rgb2hsv 255 255 0).getD 0 0 =
          ((jround (hueWrap (delC 255 255 0 0 - delC 255 255 0 255) * 255) : ℤ) : ℚ)) :=
  ⟨by norm_num [delMax, varMax, varMin, max_def, min_def],
    (hue_branch_order 255 255 0
      (by norm_num [delMax, varMax, varMin, max_def, min_def])).1⟩

/-! ### Memoization and frame conditions of the accessors -/

theorem ensureHsbaCount_of_isSome {c : ColorValue} (n : ℕ) (h : c.hsba.isSome) :
    ensureHsbaCount c n = (c, n) := by
  rw [ensureHsbaCount]
  cases hc : c.hsba
  · rw [hc] at h; simp at h
  · rfl

theorem runAccessors_of_isSome (l : List HsvAccessor) {c : ColorValue} (n : ℕ)
    (h : c.hsba.isSome) : runAccessors l c n = (c, n) := by
  induction l with
  | nil => rfl
  | cons a rest ih => rw [runAccessors, ensureHsbaCount_of_isSome n h]; exact ih

theorem runAccessors_count_le (l : List HsvAccessor) (c : ColorValue) (n : ℕ) :
    (runAccessors l c n).2 ≤ n + 1 := by
  cases l with
  | nil => exact Nat.le_succ n
  | cons a rest =>
    rw [runAccessors]
    cases hc : c.hsba with
    | some x =>
      rw [ensureHsbaCount_of_isSome n (by rw [hc]; rfl)]
      exact runAccessors_count_le rest c n
    | none =>
      have hstep : ensureHsbaCount c n = ({ c with hsba := some (computeHsba c) }, n + 1) := by
        rw [ensureHsbaCount, hc]
      rw [hstep]
      rw [runAccessors_of_isSome rest (n + 1) (by simp)]

/-- C4: across any sequence of hue, saturation and brightness calls on one
color value, `rgb2hsv` runs at most once: the first call finding `hsba`
absent computes and stores the tuple, and every later call reuses it. -/
theorem rgb2hsv_at_most_once (l : List HsvAccessor) (c : ColorValue) :
    (runAccessors l c 0).2 ≤ 1 :=
  runAccessors_count_le l c 0

/-- C10: `red`, `green`, `blue` and `alpha` return the color value
unchanged; `hue`, `saturation` and `brightness` return the cache-filled
color, whose `isColor` tag, `rgba` tuple and color string are those of the
input, and whose `hsba` is the input's cached tuple when one was present
(so the only field an accessor ever writes is an absent `hsba`). -/
theorem accessor_frame (c : ColorValue) :
    (red c).2 = c ∧ (green c).2 = c ∧ (blue c).2 = c ∧ (alpha c).2 = c ∧
    (hue c).2 = ensureHsba c ∧ (saturation c).2 = ensureHsba c ∧
    (brightness c).2 = ensureHsba c ∧
    (ensureHsba c).isColor = c.isColor ∧ (ensureHsba c).rgba = c.rgba ∧
    (ensureHsba c).colorString = c.colorString ∧
    (ensureHsba c).hsba = some (c.hsba.getD (computeHsba c)) := by
  refine ⟨rfl, rfl, rfl, rfl, rfl, rfl, rfl, ?_, ?_, ?_, ?_⟩ <;>
    · cases hc : c.hsba <;> simp [ensureHsba, hc]

/-! ### Construction -/

/-- C7: with fewer than 3 arguments, RGB mode replicates the single value
into all three channels, while non-RGB mode puts it into both the hue and
brightness slots and forces saturation to the number 0; in both modes the
2nd argument is the alpha when it is a number, else alpha defaults to the
4th channel maximum. -/
theorem short_args_channels (isRGB : Bool) (maxArr : List ℚ) (args : List JNum)
    (h : args.length < 3) :
    (isRGB = true →
      (colorArgsSelect isRGB maxArr args).r = args.getD 0 none ∧
      (colorArgsSelect isRGB maxArr args).g = args.getD 0 none ∧
      (colorArgsSelect isRGB maxArr args).b = args.getD 0 none) ∧
    (isRGB = false →
      (colorArgsSelect isRGB maxArr args).r = args.getD 0 none ∧
      (colorArgsSelect isRGB maxArr args).g = some 0 ∧
      (colorArgsSelect isRGB maxArr args).b = args.getD 0 none) ∧
    (colorArgsSelect isRGB maxArr args).a =
      (args.getD 1 none).getD (maxArr.getD 3 0) := by
  rw [colorArgsSelect, if_neg (by omega)]
  cases isRGB <;> simp

theorem short_args_channels_witness :
    ([some 65] : List JNum).length < 3 ∧
    ((true = true →
      (colorArgsSelect true [255, 255, 255, 255] [some 65]).r = [some (65:ℚ)].getD 0 none ∧
      (colorArgsSelect true [255, 255, 255, 255] [some 65]).g = [some (65:ℚ)].getD 0 none ∧
      (colorArgsSelect true [255, 255, 255, 255] [some 65]).b = [some (65:ℚ)].getD 0 none) ∧
    (true = false →
      (colorArgsSelect true [255, 255, 255, 255] [some 65]).r = [some (65:ℚ)].getD 0 none ∧
      (colorArgsSelect true [255, 255, 255, 255] [some 65]).g = some 0 ∧
      (colorArgsSelect true [255, 255, 255, 255] [some 65]).b = [some (65:ℚ)].getD 0 none) ∧
    (colorArgsSelect true [255, 255, 255, 255] [some 65]).a =
      ([some (65:ℚ)].getD 1 none).getD (([255, 255, 255, 255] : List ℚ).getD 3 0)) :=
  ⟨by norm_num, short_args_channels true [255, 255, 255, 255] [some 65] (by norm_num)⟩

/-- C8: the alpha channel used by a construction is the supplied alpha
argument exactly when that argument is a number — the 4th argument when 3
or more are given, the 2nd otherwise — and defaults to the active mode's
4th channel maximum `maxArr[3]` when it is absent or not a number. -/
theorem alpha_selection (isRGB : Bool) (maxArr : List ℚ) (args : List JNum) :
    (3 ≤ args.length →
      (colorArgsSelect isRGB maxArr args).a =
        (args.getD 3 none).getD (maxArr.getD 3 0)) ∧
    (args.length < 3 →
      (colorArgsSelect isRGB maxArr args).a =
        (args.getD 1 none).getD (maxArr.getD 3 0)) := by
  constructor
  · intro h
    rw [colorArgsSelect, if_pos h]
  · intro h
    rw [colorArgsSelect, if_neg (by omega)]
    cases isRGB <;> rfl

theorem alpha_selection_witness :
    (colorArgsSelect true [10, 20, 30, 40] [some 1, some 2, some 3, none]).a = 40 := by
  have h := (alpha_selection true [10, 20, 30, 40] [some 1, some 2, some 3, none]).1
    (by norm_num)
  simpa using h

/-! ### Interpolation -/

/-- C9: `lerpColor` applies the external scalar `lerp` unmodified and for
every `amt` (no clamping at this layer): on array inputs it returns a new
array of the length of the first input whose i-th element is
`f(c1[i], c2[i], amt)`, and on scalar inputs it returns `f(c1, c2, amt)`
directly. -/
theorem lerpColor_applies_lerp (f : ℚ → ℚ → ℚ → ℚ) (l1 l2 : List ℚ) (a b amt : ℚ)
    (h : l1.length ≤ l2.length) :
    (lerpColorWith f (.arr l1) (.arr l2) amt =
      .arr ((List.range l1.length).map fun i => f (l1.getD i 0) (l2.getD i 0) amt)) ∧
    ((List.range l1.length).map fun i => f (l1.getD i 0) (l2.getD i 0) amt).length =
      l1.length ∧
    lerpColorWith f (.scalar a) (.scalar b) amt = .scalar (f a b amt) :=
  ⟨rfl, by simp, rfl⟩

theorem lerpColor_applies_lerp_witness :
    ([204, 102, 0] : List ℚ).length ≤ ([0, 102, 153] : List ℚ).length ∧
    ((lerpColorWith lerp (.arr [204, 102, 0]) (.arr [0, 102, 153]) (33/100) =
      .arr ((List.range ([204, 102, 0] : List ℚ).length).map fun i =>
        lerp (([204, 102, 0] : List ℚ).getD i 0) (([0, 102, 153] : List ℚ).getD i 0)
          (33/100))) ∧
    ((List.range ([204, 102, 0] : List ℚ).length).map fun i =>
        lerp (([204, 102, 0] : List ℚ).getD i 0) (([0, 102, 153] : List ℚ).getD i 0)
          (33/100)).length = ([204, 102, 0] : List ℚ).length ∧
    lerpColorWith lerp (.scalar 0) (.scalar 255) (33/100) =
      .scalar (lerp 0 255 (33/100))) :=
  ⟨by norm_num, lerpColor_applies_lerp lerp [204, 102, 0] [0, 102, 153] 0 255 (33/100)
    (by norm_num)⟩

/-! ### The hsba/rgba consistency invariant -/

theorem rgb2hsv_0_126_255 : rgb2hsv 0 126 255 = [149, 255, 255] := by
  have hH : hueOf 0 126 255 = 149 / 255 := by
    norm_num [hueOf, delMax, varMax, varMin, hueChroma, hueWrap, delC, max_def, min_def]
  have hS : satOf 0 126 255 = 1 := by
    norm_num [satOf, delMax, varMax, varMin, max_def, min_def]
  have hV : varMax 0 126 255 = 1 := by
    norm_num [varMax, max_def]
  have e1 : jround (hueOf 0 126 255 * 255) = 149 := by
    rw [hH]; exact jround_eq_of (by norm_num) (by norm_num)
  have e2 : jround (satOf 0 126 255 * 255) = 255 := by
    rw [hS]; exact jround_eq_of (by norm_num) (by norm_num)
  have e3 : jround (varMax 0 126 255 * 255) = 255 := by
    rw [hV]; exact jround_eq_of (by norm_num) (by norm_num)
  simpa using rgb2hsv_eq e1 e2 e3

/-- C1 is false on the code: a color constructed in a non-RGB mode stores
the raw argument tuple verbatim as `hsba`, which differs from the tuple
derived from `rgba` via `rgb2hsv`.  With HSB maxima all 255, the color
`(0, 126, 255)` has `hsba = [0, 126, 255, 255]` but
`rgb2hsv(rgba) ++ [rgba[3]] = [149, 255, 255, 255]`. -/
theorem hsba_consistency_counterexample :
    (color ⟨ColorMode.hsb, [255, 255, 255, 255], [255, 255, 255, 255]⟩
        [some 0, some 126, some 255]).hsba.isSome = true ∧
    (color ⟨ColorMode.hsb, [255, 255, 255, 255], [255, 255, 255, 255]⟩
        [some 0, some 126, some 255]).hsba ≠
      some (computeHsba (color ⟨ColorMode.hsb, [255, 255, 255, 255], [255, 255, 255, 255]⟩
        [some 0, some 126, some 255])) := by
  have hsel : colorArgsSelect false [255, 255, 255, 255] [some 0, some 126, some 255] =
      ⟨some 0, some 126, some 255, 255⟩ := rfl
  have hhsba : (color ⟨ColorMode.hsb, [255, 255, 255, 255], [255, 255, 255, 255]⟩
      [some 0, some 126, some 255]).hsba =
      some [some 0, some 126, some 255, some 255] := rfl
  have hrgba : (color ⟨ColorMode.hsb, [255, 255, 255, 255], [255, 255, 255, 255]⟩
      [some 0, some 126, some 255]).rgba =
      [some 0, some 126, some 255, some 255] := by
    show getNormalizedColor [255, 255, 255, 255] [some 0, some 126, some 255, some 255] = _
    rw [getNormalizedColor]
    simp only [show List.range ([some (0:ℚ), some 126, some 255, some 255] : List JNum).length =
        [0, 1, 2, 3] from rfl, List.map_cons, List.map_nil]
    norm_num [List.getD]
  have hch : computeHsba (color ⟨ColorMode.hsb, [255, 255, 255, 255], [255, 255, 255, 255]⟩
      [some 0, some 126, some 255]) = [some 149, some 255, some 255, some 255] := by
    rw [computeHsba, hrgba]
    show (rgb2hsv 0 126 255).map some ++ [some 255] = _
    rw [rgb2hsv_0_126_255]
    rfl
  refine ⟨by rw [hhsba]; rfl, ?_⟩
  rw [hhsba, hch]
  intro hcontra
  norm_num at hcontra

/-- C1 amended: the consistency invariant holds for every color whose
`hsba` cache is absent and then filled by an accessor — the filled tuple is
exactly `rgb2hsv(rgba[0..2]) ++ [rgba[3]]` and `rgba` is untouched — and
colors constructed in RGB mode start with `hsba` absent.  (Colors
constructed in a non-RGB mode instead store the raw input tuple as `hsba`,
which need not be consistent with `rgba`.) -/
theorem hsba_consistency_amended (p : P5) (args : List JNum) (c : ColorValue)
    (hmode : p._colorMode = ColorMode.rgb) (hc : c.hsba = none) :
    (color p args).hsba = none ∧
    (ensureHsba c).hsba = some (computeHsba c) ∧ (ensureHsba c).rgba = c.rgba := by
  have hbeq : (p._colorMode == ColorMode.rgb) = true := by rw [hmode]; rfl
  refine ⟨?_, ?_, ?_⟩
  · simp [color, hbeq]
  · simp [ensureHsba, hc]
  · simp [ensureHsba, hc]

theorem hsba_consistency_amended_witness :
    ((⟨ColorMode.rgb, [255, 255, 255, 255], [255, 255, 255, 255]⟩ : P5)._colorMode =
        ColorMode.rgb ∧
      (⟨true, [some 1, some 2, some 3, some 4], none, "c"⟩ : ColorValue).hsba = none) ∧
    ((color ⟨ColorMode.rgb, [255, 255, 255, 255], [255, 255, 255, 255]⟩
        [some 10, some 20, some 30]).hsba = none ∧
      (ensureHsba ⟨true, [some 1, some 2, some 3, some 4], none, "c"⟩).hsba =
        some (computeHsba ⟨true, [some 1, some 2, some 3, some 4], none, "c"⟩) ∧
      (ensureHsba ⟨true, [some 1, some 2, some 3, some 4], none, "c"⟩).rgba =
        ([some 1, some 2, some 3, some 4] : List JNum)) :=
  ⟨⟨rfl, rfl⟩,
    hsba_consistency_amended ⟨ColorMode.rgb, [255, 255, 255, 255], [255, 255, 255, 255]⟩
      [some 10, some 20, some 30] ⟨true, [some 1, some 2, some 3, some 4], none, "c"⟩
      rfl rfl⟩

end P5Color
